import Mathlib

/-!
Verification of the Titanic preprocessing pipeline
(`src/preprocessing/automate_Farrel-Paksi-Aditya.py`).

The pipeline is a sequence of pure table-to-table transformations over an
in-memory pandas DataFrame:
  load_data → handle_missing_values → feature_engineering → encoding →
  scaling → save_data.

Shallow embedding choices:
* A table cell is `Option Val`: `none` models a pandas `NaN` (absent value),
  `Val.num` a numeric value (modelled over `ℚ`, idealising float arithmetic),
  `Val.str` a free-text value.
* A `Table` is the list of named columns plus an explicit row count `nrows`
  (pandas keeps the row count in the index, so a frame with zero columns can
  still have rows; the field mirrors that).
* Fallible code returns `Except String Table`.  The failure points the
  claims exercise are `load_data` on a missing path (an explicit raise in
  the source), `df['Age'].median()` on a free-text (object-dtype) `Age`
  column (pandas raises a TypeError), and `df['Embarked'].mode()[0]` when
  the mode of an all-absent column is the empty series (indexing it raises
  `KeyError: 0`).
* The scaler's transcendental kernels (`np.log1p` and the square root inside
  `StandardScaler`) are irrational-valued; the table-level model is
  parameterised by rational kernels `lg` (for `log1p`) and `sq` (for `sqrt`),
  and the statistical theorems assume the `sq` kernel is an exact square
  root at the variances it is applied to, which is how the spec's
  "within floating-point tolerance" is idealised.
* The filesystem seen by the loader is a function `String → Option Table`
  (path to already-parsed content; CSV parsing is outside every claim).
-/

/-- A non-absent cell value: a number (pandas numeric dtypes, idealised as
`ℚ`) or a free-text string (pandas `object` dtype). -/
inductive Val where
  | num (q : ℚ)
  | str (s : String)
deriving DecidableEq

/-- A cell of a column; `none` is pandas `NaN`. -/
abbrev Cell := Option Val

/-- A column: the cells in row order. -/
abbrev Col := List Cell

/-- A DataFrame: named columns in order, plus the row count carried by the
index (pandas keeps `len(df)` even when every column is dropped). -/
structure Table where
  nrows : Nat
  cols : List (String × Col)
deriving DecidableEq

/-- `df[name]` lookup over the column list (first match). -/
def getColA : List (String × Col) → String → Option Col
  | [], _ => none
  | c :: t, n => if c.1 = n then some c.2 else getColA t n

/-- `df[name]`: the column named `name`, if present. -/
def Table.getCol (df : Table) (n : String) : Option Col :=
  getColA df.cols n

/-- `name in df.columns`. -/
def Table.hasCol (df : Table) (n : String) : Bool :=
  (df.getCol n).isSome

/-- `df[name] = v`: replace the column in place if it exists, else append it
at the end (pandas column-assignment semantics). -/
def setColA (l : List (String × Col)) (n : String) (v : Col) : List (String × Col) :=
  if (getColA l n).isSome then
    l.map (fun c => if c.1 = n then (n, v) else c)
  else
    l ++ [(n, v)]

/-- Table-level column assignment; the row index (and so `nrows`) is kept. -/
def Table.setCol (df : Table) (n : String) (v : Col) : Table :=
  ⟨df.nrows, setColA df.cols n v⟩

/-- `df.drop(columns=[name])`; the row index is kept. -/
def Table.dropCol (df : Table) (n : String) : Table :=
  ⟨df.nrows, df.cols.filter (fun c => !(c.1 = n : Bool))⟩

/-- The numeric content of a cell, if any. -/
def cellNum : Cell → Option ℚ
  | some (Val.num q) => some q
  | _ => none

/-- The numeric values of a column, skipping absent and non-numeric cells
(pandas numeric reductions use `skipna=True`). -/
def numVals (v : Col) : List ℚ :=
  v.filterMap cellNum

/-- The present (non-`NaN`) values of a column. -/
def presentVals (v : Col) : List Val :=
  v.filterMap id

/-- The string content of a cell, if any. -/
def cellStr : Cell → Option String
  | some (Val.str s) => some s
  | _ => none

/-- The string values of a column. -/
def strVals (v : Col) : List String :=
  v.filterMap cellStr

/-- `Series.median()` with `skipna=True`: the middle of the sorted present
numeric values, averaging the two middles at even length; `none` (pandas
`NaN`) when no present numeric value exists. -/
def medianQ (xs : List ℚ) : Option ℚ :=
  let s := xs.insertionSort (· ≤ ·)
  let n := s.length
  if n = 0 then none
  else if n % 2 = 1 then some (s.getD (n / 2) 0)
  else some ((s.getD (n / 2 - 1) 0 + s.getD (n / 2) 0) / 2)

/-- The ordering pandas uses to sort candidate modes: numbers before
strings, numbers by value, strings lexicographically.  (On columns mixing
numbers and strings pandas cannot sort and falls back to encounter order
with a warning; no claim exercises that case.) -/
def valLEb : Val → Val → Bool
  | Val.num a, Val.num b => a ≤ b
  | Val.num _, Val.str _ => true
  | Val.str _, Val.num _ => false
  | Val.str a, Val.str b => a ≤ b

/-- `Series.mode()[0]`: among the present values of maximal multiplicity,
the least in the canonical order (pandas sorts the mode series ascending and
`[0]` takes its head); `none` when there is no present value, in which case
the source's indexing `[0]` raises. -/
def modeVal (xs : List Val) : Option Val :=
  match (xs.insertionSort (fun a b => valLEb a b = true)).dedup with
  | [] => none
  | c :: rest => some (rest.foldl (fun b w => if xs.count b < xs.count w then w else b) c)

/-- `Series.fillna(m)` with a present scalar `m`. -/
def fillnaV (m : Val) (v : Col) : Col :=
  v.map (fun c => some (c.getD m))

/-- `Series.fillna` where the fill value may itself be `NaN` (pandas leaves
the column unchanged then, which is what `fillna(median)` does when the
median of an all-`NaN` column is `NaN`). -/
def fillnaOpt (m : Option ℚ) (v : Col) : Col :=
  match m with
  | none => v
  | some q => fillnaV (Val.num q) v

/-- A cell holding free text. -/
def isStrCell : Cell → Bool
  | some (Val.str _) => true
  | _ => false

/-- Lines 39-41: `df['Age'] = df['Age'].fillna(df['Age'].median())`,
guarded by `'Age' in df.columns`.  A column holding any free-text value has
object dtype, and `Series.median()` raises a TypeError on it ("could not
convert string to float"); on a numeric column the median skips absent
values and is itself `NaN` when none are present, in which case the
`fillna` fills nothing. -/
def imputeAge (df : Table) : Except String Table :=
  match df.getCol "Age" with
  | none => Except.ok df
  | some v =>
    if v.any isStrCell then
      Except.error "TypeError: could not convert string to float"
    else
      Except.ok (df.setCol "Age" (fillnaOpt (medianQ (numVals v)) v))

/-- Lines 44-46: `df['Embarked'] = df['Embarked'].fillna(df['Embarked'].mode()[0])`,
guarded by `'Embarked' in df.columns`.  When the column has no present value
the mode series is empty and `[0]` raises. -/
def imputeEmbarked (df : Table) : Except String Table :=
  match df.getCol "Embarked" with
  | none => Except.ok df
  | some v =>
    match modeVal (presentVals v) with
    | none => Except.error "KeyError: 0"
    | some m => Except.ok (df.setCol "Embarked" (fillnaV m v))

/-- Line 52: `df['Cabin'].apply(lambda x: 0 if pd.isna(x) else 1)`. -/
def hasCabinCol (v : Col) : Col :=
  v.map (fun c => some (Val.num (if c.isNone then 0 else 1)))

/-- Lines 50-54: derive `hasCabin` from `Cabin`, then drop `Cabin`,
guarded by `'Cabin' in df.columns`. -/
def imputeCabin (df : Table) : Table :=
  match df.getCol "Cabin" with
  | none => df
  | some v => (df.setCol "hasCabin" (hasCabinCol v)).dropCol "Cabin"

/-- `df.isnull().sum().sum() > 0`: some cell of some column is absent. -/
def hasAnyNull (df : Table) : Bool :=
  df.cols.any (fun c => c.2.any (fun x => x.isNone))

/-- No cell of any column is absent. -/
def noNulls (df : Table) : Bool :=
  df.cols.all (fun c => c.2.all (fun x => !x.isNone))

/-- The cell of a column at a row index (`none` beyond the column). -/
def cellAt (v : Col) (i : Nat) : Cell :=
  v.getD i none

/-- Row `i` holds an absent value in some column. -/
def rowHasNull (l : List (String × Col)) (i : Nat) : Bool :=
  l.any (fun c => (cellAt c.2 i).isNone)

/-- Line 59: `df.dropna(inplace=True)` — keep exactly the rows with no
absent value in any column; the row count becomes the number of kept rows. -/
def dropna (df : Table) : Table :=
  let keep := (List.range df.nrows).filter (fun i => !rowHasNull df.cols i)
  ⟨keep.length, df.cols.map (fun c => (c.1, keep.map (fun i => cellAt c.2 i)))⟩

/-- Lines 34-54 of `handle_missing_values`: the three imputation /
derivation steps, in source order (Age, Embarked, Cabin). -/
def hmImpute (df : Table) : Except String Table :=
  match imputeAge df with
  | Except.error e => Except.error e
  | Except.ok d1 =>
    match imputeEmbarked d1 with
    | Except.error e => Except.error e
    | Except.ok d2 => Except.ok (imputeCabin d2)

/-- Lines 24-62: `handle_missing_values` — imputation steps, then the
residual drop `if df.isnull().sum().sum() > 0: df.dropna(inplace=True)`. -/
def handle_missing_values (df : Table) : Except String Table :=
  match hmImpute df with
  | Except.error e => Except.error e
  | Except.ok m => Except.ok (if hasAnyNull m then dropna m else m)

/-- Line 81: the regex `' ([A-Za-z]+)\.'` of `Series.str.extract` — the
leftmost occurrence of a space followed by a nonempty maximal run of ASCII
letters followed by a literal period; the captured group is the letter run.
(A period is not a letter, so backtracking inside the greedy `[A-Za-z]+`
can never succeed on a proper prefix of the run.) -/
def extractTitleAux : List Char → Option String
  | [] => none
  | ' ' :: rest =>
    let run := rest.takeWhile Char.isAlpha
    if !run.isEmpty && ((rest.drop run.length).head? == some '.') then
      some (String.mk run)
    else
      extractTitleAux rest
  | _ :: rest => extractTitleAux rest

/-- `df['Name'].str.extract(r' ([A-Za-z]+)\.', expand=False)` on one name. -/
def extractTitle (s : String) : Option String :=
  extractTitleAux s.toList

/-- Lines 84-93: the `title_mapping` dictionary, in source order. -/
def title_mapping : List (String × String) :=
  [("Mr", "Mr"),
   ("Miss", "Miss"), ("Mlle", "Miss"), ("Ms", "Miss"),
   ("Mrs", "Mrs"), ("Mme", "Mrs"),
   ("Master", "Master"),
   ("Dr", "Rare"), ("Rev", "Rare"), ("Col", "Rare"), ("Major", "Rare"),
   ("Lady", "Rare"), ("Countess", "Rare"), ("Jonkheer", "Rare"),
   ("Don", "Rare"), ("Dona", "Rare"), ("Capt", "Rare"), ("Sir", "Rare")]

/-- Line 95: `.map(title_mapping).fillna('Rare')` — an extracted title maps
through the dictionary (`NaN` when absent from it), and any `NaN` (failed
extraction or unmapped title) becomes `"Rare"`. -/
def mapTitle (t : Option String) : String :=
  (t.bind (fun s => title_mapping.lookup s)).getD "Rare"

/-- The `Title` cell derived from a `Name` cell: `str.extract` yields `NaN`
on an absent or non-string name, and the map-then-fillna always yields a
present string. -/
def titleCell (c : Cell) : Cell :=
  some (Val.str (mapTitle ((cellStr c).bind extractTitle)))

/-- `df['SibSp'] + df['Parch']` cellwise: numbers add, strings concatenate
(pandas object-series `+`), `NaN` propagates.  (pandas raises on a
string-number mix; the model returns `NaN` there — no claim exercises it.) -/
def addCell : Cell → Cell → Cell
  | some (Val.num a), some (Val.num b) => some (Val.num (a + b))
  | some (Val.str a), some (Val.str b) => some (Val.str (a ++ b))
  | _, _ => none

/-- Lines 65-116: `feature_engineering` — derive `Title` from `Name`,
derive `FamilySize = SibSp + Parch + 1`, then drop `PassengerId`, `Name`,
`Ticket` (each only if present). -/
def feature_engineering (df : Table) : Table :=
  let d1 :=
    match df.getCol "Name" with
    | none => df
    | some v => df.setCol "Title" (v.map titleCell)
  let d2 :=
    match d1.getCol "SibSp", d1.getCol "Parch" with
    | some a, some b =>
      d1.setCol "FamilySize"
        (List.zipWith (fun x y => addCell (addCell x y) (some (Val.num 1))) a b)
    | _, _ => d1
  ((d2.dropCol "PassengerId").dropCol "Name").dropCol "Ticket"

/-- `df.select_dtypes(include=['object'])` membership: a column read from
CSV has object dtype exactly when it holds free text. -/
def isObjCol (v : Col) : Bool :=
  v.any isStrCell

/-- `LabelEncoder.fit`: `numpy.unique` of the values — the distinct strings
of the column in ascending lexicographic order. -/
def classesOf (v : Col) : List String :=
  ((strVals v).insertionSort (· ≤ ·)).dedup

/-- `LabelEncoder.transform` on one cell: a string becomes the index of its
class; the model leaves other cells unchanged (sklearn raises on a column
mixing strings with other values — no claim exercises that, and the
encoding theorem restricts to homogeneous string columns). -/
def encodeCell (classes : List String) : Cell → Cell
  | some (Val.str s) => some (Val.num (classes.indexOf s))
  | c => c

/-- `le.fit_transform(df[col])` for one column. -/
def labelEncode (v : Col) : Col :=
  v.map (encodeCell (classesOf v))

/-- Lines 119-139: `encoding` — label-encode every object-dtype column,
independently per column. -/
def encoding (df : Table) : Table :=
  ⟨df.nrows,
   df.cols.map (fun c => if isObjCol c.2 then (c.1, labelEncode c.2) else c)⟩

/-- Apply a numeric kernel to the numeric cells of a column (`NaN` and any
other cell pass through, as with numpy ufuncs over a numeric column). -/
def mapNumCol (f : ℚ → ℚ) (v : Col) : Col :=
  v.map (fun c =>
    match c with
    | some (Val.num q) => some (Val.num (f q))
    | c => c)

/-- `Series.mean()` over the present numeric values (`0/0 = 0` at the empty
column never matters: the theorems assume a nonzero variance, which forces
nonemptiness). -/
def meanQ (xs : List ℚ) : ℚ :=
  xs.sum / xs.length

/-- The population variance `sum((x - mean)^2) / n` — `StandardScaler`
uses the biased (`ddof = 0`) estimate. -/
def popVarQ (xs : List ℚ) : ℚ :=
  ((xs.map (fun x => (x - meanQ xs) ^ 2)).sum) / xs.length

/-- `StandardScaler.fit_transform` on one column, with `sq` standing for
the square root: every numeric cell `x` becomes `(x - mean) / sq variance`,
mean and variance taken over this same column. -/
def standardizeQ (sq : ℚ → ℚ) (v : Col) : Col :=
  mapNumCol (fun x => (x - meanQ (numVals v)) / sq (popVarQ (numVals v))) v

/-- One column of `scaler.fit_transform(df[valid_cols])`: standardize the
named column when present, skip it otherwise. -/
def standardizeCol (sq : ℚ → ℚ) (n : String) (df : Table) : Table :=
  match df.getCol n with
  | none => df
  | some v => df.setCol n (standardizeQ sq v)

/-- Lines 142-174: `scaling` — first `df['Fare'] = np.log1p(df['Fare'])`
when `Fare` exists (kernel `lg`), then
`df[valid_cols] = scaler.fit_transform(df[valid_cols])` with
`valid_cols = [c for c in ['Age','Fare'] if c in df.columns]`.
`StandardScaler` fits each column's statistics independently, and the two
column names are distinct, so the joint assignment equals standardizing
`Age` then `Fare` one after the other, each skipped when absent. -/
def scaling (lg sq : ℚ → ℚ) (df : Table) : Table :=
  let d1 :=
    match df.getCol "Fare" with
    | none => df
    | some v => df.setCol "Fare" (mapNumCol lg v)
  standardizeCol sq "Fare" (standardizeCol sq "Age" d1)

/-- Line 7: `RAW_DATA_PATH`. -/
def RAW_DATA_PATH : String := "titanic_raw/titanic.csv"

/-- Line 8: `OUTPUT_PATH`. -/
def OUTPUT_PATH : String := "preprocessing/titanic_preprocessing.csv"

/-- Lines 11-21: `load_data` — raise `FileNotFoundError` when the path does
not exist, otherwise return the parsed table.  The filesystem is modelled
as a map from paths to parsed content. -/
def load_data (fs : String → Option Table) (path : String) : Except String Table :=
  match fs path with
  | none => Except.error ("File tidak ditemukan di: " ++ path)
  | some df => Except.ok df

/-- The four table transformations of the pipeline, in source order
(lines 193-196). -/
def transformStages (lg sq : ℚ → ℚ) (df : Table) : Except String Table :=
  match handle_missing_values df with
  | Except.error e => Except.error e
  | Except.ok d => Except.ok (scaling lg sq (encoding (feature_engineering d)))

/-- Lines 189-200: `main` — load, transform, and save to `OUTPUT_PATH`;
the value is the written file (path and content) or the caught error. -/
def runPipeline (lg sq : ℚ → ℚ) (fs : String → Option Table) :
    Except String (String × Table) :=
  match load_data fs RAW_DATA_PATH with
  | Except.error e => Except.error e
  | Except.ok df =>
    match transformStages lg sq df with
    | Except.error e => Except.error e
    | Except.ok out => Except.ok (OUTPUT_PATH, out)

/-- The output file produced by a run of `main` (`none` when some stage
before the writer failed). -/
def writtenOutput (lg sq : ℚ → ℚ) (fs : String → Option Table) :
    Option (String × Table) :=
  (runPipeline lg sq fs).toOption

/-- Lines 199-200: the diagnostic `main` prints when the pipeline fails
(`[ERROR] Terjadi kesalahan: {e}`); `none` on success. -/
def mainReport (lg sq : ℚ → ℚ) (fs : String → Option Table) : Option String :=
  match runPipeline lg sq fs with
  | Except.error e => some ("[ERROR] Terjadi kesalahan: " ++ e)
  | Except.ok _ => none

/-- Every column of the table covers exactly the rows of the index (pandas
frames are never ragged). -/
def Table.WF (df : Table) : Prop :=
  ∀ p ∈ df.cols, p.2.length = df.nrows

/-! ### Helper lemmas about column access and row counts -/

theorem getColA_map_set (l : List (String × Col)) (n : String) (v : Col) :
    getColA (l.map (fun c => if c.1 = n then (n, v) else c)) n
      = (getColA l n).map (fun _ => v) := by
  induction l with
  | nil => rfl
  | cons c t ih =>
    by_cases h : c.1 = n
    · simp [getColA, h]
    · simp [getColA, h, ih]

theorem getColA_map_set_ne (l : List (String × Col)) (n n' : String) (v : Col)
    (h : n' ≠ n) :
    getColA (l.map (fun c => if c.1 = n then (n, v) else c)) n' = getColA l n' := by
  induction l with
  | nil => rfl
  | cons c t ih =>
    by_cases hc : c.1 = n
    · have hcn : ¬ c.1 = n' := by rw [hc]; exact Ne.symm h
      simp [getColA, hc, Ne.symm h, hcn, ih]
    · by_cases hc' : c.1 = n'
      · simp [getColA, hc, hc', h]
      · simp [getColA, hc, hc', ih]

theorem getColA_append_right (l : List (String × Col)) (n : String) (v : Col)
    (h : getColA l n = none) : getColA (l ++ [(n, v)]) n = some v := by
  induction l with
  | nil => simp [getColA]
  | cons c t ih =>
    rw [getColA] at h
    by_cases hc : c.1 = n
    · rw [if_pos hc] at h; cases h
    · rw [if_neg hc] at h
      simpa [getColA, hc] using ih h

theorem getColA_append_ne (l : List (String × Col)) (n n' : String) (v : Col)
    (h : n' ≠ n) : getColA (l ++ [(n, v)]) n' = getColA l n' := by
  induction l with
  | nil => simp [getColA, Ne.symm h]
  | cons c t ih =>
    by_cases hc : c.1 = n'
    · simp [getColA, hc]
    · simp [getColA, hc, ih]

theorem getCol_setCol_self (df : Table) (n : String) (v : Col) :
    (df.setCol n v).getCol n = some v := by
  unfold Table.setCol Table.getCol setColA
  by_cases h : (getColA df.cols n).isSome
  · rw [if_pos h, getColA_map_set]
    cases hg : getColA df.cols n
    · rw [hg] at h; cases h
    · rfl
  · rw [if_neg h]
    apply getColA_append_right
    cases hg : getColA df.cols n
    · rfl
    · rw [hg] at h; cases h rfl

theorem getCol_setCol_ne (df : Table) (n n' : String) (v : Col) (h : n' ≠ n) :
    (df.setCol n v).getCol n' = df.getCol n' := by
  unfold Table.setCol Table.getCol setColA
  by_cases hs : (getColA df.cols n).isSome
  · rw [if_pos hs, getColA_map_set_ne _ _ _ _ h]
  · rw [if_neg hs, getColA_append_ne _ _ _ _ h]

theorem getColA_filter_self (l : List (String × Col)) (n : String) :
    getColA (l.filter (fun c => !(c.1 = n : Bool))) n = none := by
  induction l with
  | nil => rfl
  | cons c t ih =>
    by_cases hc : c.1 = n
    · simp [hc, ih]
    · simp [List.filter_cons, hc, getColA, ih]

theorem getColA_filter_ne (l : List (String × Col)) (n n' : String) (h : n' ≠ n) :
    getColA (l.filter (fun c => !(c.1 = n : Bool))) n' = getColA l n' := by
  induction l with
  | nil => rfl
  | cons c t ih =>
    by_cases hc : c.1 = n
    · simp [List.filter_cons, hc, getColA, Ne.symm h, ih]
    · simp [List.filter_cons, hc, getColA, ih]

theorem getCol_dropCol_self (df : Table) (n : String) :
    (df.dropCol n).getCol n = none :=
  getColA_filter_self df.cols n

theorem getCol_dropCol_ne (df : Table) (n n' : String) (h : n' ≠ n) :
    (df.dropCol n).getCol n' = df.getCol n' :=
  getColA_filter_ne df.cols n n' h

theorem mem_of_getColA {l : List (String × Col)} {n : String} {v : Col}
    (h : getColA l n = some v) : (n, v) ∈ l := by
  induction l with
  | nil => cases h
  | cons c t ih =>
    rw [getColA] at h
    by_cases hc : c.1 = n
    · rw [if_pos hc] at h
      injection h with h
      obtain ⟨c1, c2⟩ := c
      simp only at hc h
      rw [← hc, ← h]
      exact List.mem_cons_self _ _
    · rw [if_neg hc] at h
      exact List.mem_cons_of_mem _ (ih h)

theorem mem_of_getCol {df : Table} {n : String} {v : Col}
    (h : df.getCol n = some v) : (n, v) ∈ df.cols :=
  mem_of_getColA h

theorem nrows_setCol (df : Table) (n : String) (v : Col) :
    (df.setCol n v).nrows = df.nrows := rfl

theorem nrows_dropCol (df : Table) (n : String) :
    (df.dropCol n).nrows = df.nrows := rfl

theorem nrows_imputeAge {df d : Table} (h : imputeAge df = Except.ok d) :
    d.nrows = df.nrows := by
  unfold imputeAge at h
  split at h
  · injection h with h; rw [← h]
  · split at h
    · cases h
    · injection h with h; rw [← h]; rfl

theorem nrows_imputeCabin (df : Table) : (imputeCabin df).nrows = df.nrows := by
  unfold imputeCabin
  split <;> rfl

theorem nrows_imputeEmbarked {df d : Table} (h : imputeEmbarked df = Except.ok d) :
    d.nrows = df.nrows := by
  unfold imputeEmbarked at h
  split at h
  · injection h with h; rw [← h]
  · split at h
    · cases h
    · injection h with h; rw [← h]; rfl

theorem nrows_hmImpute {df m : Table} (h : hmImpute df = Except.ok m) :
    m.nrows = df.nrows := by
  unfold hmImpute at h
  split at h
  · cases h
  · rename_i d1 hd1
    split at h
    · cases h
    · rename_i d2 hd2
      injection h with h
      rw [← h, nrows_imputeCabin, nrows_imputeEmbarked hd2, nrows_imputeAge hd1]

theorem nrows_dropna_le (df : Table) : (dropna df).nrows ≤ df.nrows := by
  unfold dropna
  calc ((List.range df.nrows).filter (fun i => !rowHasNull df.cols i)).length
      ≤ (List.range df.nrows).length := List.length_filter_le _ _
    _ = df.nrows := List.length_range df.nrows

theorem noNulls_dropna (df : Table) : noNulls (dropna df) = true := by
  unfold noNulls dropna
  simp only [List.all_eq_true, List.mem_map]
  rintro p ⟨c, hc, rfl⟩ x hx
  simp only [List.mem_map] at hx
  obtain ⟨i, hi, rfl⟩ := hx
  simp only [List.mem_filter, List.mem_range] at hi
  have h2 := hi.2
  simp only [Bool.not_eq_true', rowHasNull, List.any_eq_false] at h2
  simp [h2 c hc]

theorem noNulls_of_hasAnyNull_false {df : Table} (h : hasAnyNull df = false) :
    noNulls df = true := by
  unfold hasAnyNull at h
  unfold noNulls
  rw [List.any_eq_false] at h
  rw [List.all_eq_true]
  intro p hp
  have hpx := h p hp
  rw [Bool.not_eq_true, List.any_eq_false] at hpx
  rw [List.all_eq_true]
  intro x hx
  simp [hpx x hx]

theorem modeVal_isSome {xs : List Val} (h : xs ≠ []) : (modeVal xs).isSome = true := by
  unfold modeVal
  obtain ⟨a, ha⟩ := List.exists_mem_of_ne_nil xs h
  have h1 : a ∈ xs.insertionSort (fun a b => valLEb a b = true) :=
    (List.mem_insertionSort _).2 ha
  have h2 : a ∈ (xs.insertionSort (fun a b => valLEb a b = true)).dedup :=
    List.mem_dedup.2 h1
  cases hm : (xs.insertionSort (fun a b => valLEb a b = true)).dedup with
  | nil => rw [hm] at h2; cases h2
  | cons c rest => simp

theorem getCol_imputeAge_ne {df d : Table} (n : String)
    (hok : imputeAge df = Except.ok d) (h : n ≠ "Age") :
    d.getCol n = df.getCol n := by
  unfold imputeAge at hok
  split at hok
  · injection hok with hok; rw [← hok]
  · split at hok
    · cases hok
    · injection hok with hok
      rw [← hok]
      exact getCol_setCol_ne _ _ _ _ h

theorem getCol_imputeEmbarked_ne {df d : Table} (n : String)
    (hok : imputeEmbarked df = Except.ok d) (h : n ≠ "Embarked") :
    d.getCol n = df.getCol n := by
  unfold imputeEmbarked at hok
  split at hok
  · injection hok with hok; rw [← hok]
  · split at hok
    · cases hok
    · injection hok with hok
      rw [← hok]
      exact getCol_setCol_ne _ _ _ _ h

theorem getCol_imputeCabin_ne (df : Table) (n : String)
    (h1 : n ≠ "Cabin") (h2 : n ≠ "hasCabin") :
    (imputeCabin df).getCol n = df.getCol n := by
  unfold imputeCabin
  split
  · rfl
  · rw [getCol_dropCol_ne _ _ _ h1, getCol_setCol_ne _ _ _ _ h2]

theorem numVals_nil_of_allNone {v : Col} (h : ∀ c ∈ v, c = none) :
    numVals v = [] := by
  induction v with
  | nil => rfl
  | cons c t ih =>
    have hc := h c (List.mem_cons_self c t)
    have ht := ih (fun x hx => h x (List.mem_cons_of_mem _ hx))
    unfold numVals at ht ⊢
    rw [List.filterMap_cons, hc, ht]
    rfl

theorem numVals_mapNumCol (f : ℚ → ℚ) (v : Col) :
    numVals (mapNumCol f v) = (numVals v).map f := by
  induction v with
  | nil => rfl
  | cons c t ih =>
    unfold numVals mapNumCol at ih ⊢
    cases c with
    | none => simpa [List.filterMap_cons, cellNum] using ih
    | some x =>
      cases x with
      | num q => simpa [List.filterMap_cons, cellNum] using ih
      | str s => simpa [List.filterMap_cons, cellNum] using ih

theorem nrows_feature_engineering (df : Table) :
    (feature_engineering df).nrows = df.nrows := by
  unfold feature_engineering
  split <;> (dsimp only) <;> split <;> rfl

theorem nrows_encoding (df : Table) : (encoding df).nrows = df.nrows := rfl

theorem nrows_standardizeCol (sq : ℚ → ℚ) (n : String) (df : Table) :
    (standardizeCol sq n df).nrows = df.nrows := by
  unfold standardizeCol
  split <;> rfl

theorem nrows_scaling (lg sq : ℚ → ℚ) (df : Table) :
    (scaling lg sq df).nrows = df.nrows := by
  unfold scaling
  dsimp only
  rw [nrows_standardizeCol, nrows_standardizeCol]
  split <;> rfl

/-! ### Predicates used by the claim statements -/

/-- A run of a fallible stage finished without raising. -/
def isOkE (e : Except String Table) : Bool :=
  match e with
  | Except.ok _ => true
  | Except.error _ => false

/-- The `Embarked` column, when present, holds at least one present value
(so that `mode()[0]` is defined). -/
def embarkedPresentOK (df : Table) : Bool :=
  match df.getCol "Embarked" with
  | none => true
  | some v => !(presentVals v).isEmpty

/-- The `Age` column, when present, holds no free-text value (so that it is
not of object dtype and `Series.median()` does not raise). -/
def ageNumericOK (df : Table) : Bool :=
  match df.getCol "Age" with
  | none => true
  | some v => !(v.any isStrCell)

/-- No cell of any column holds free text. -/
def noStrCells (df : Table) : Bool :=
  df.cols.all (fun p => p.2.all (fun c => !isStrCell c))

/-- Every object (free-text) column holds only present strings — the domain
on which `LabelEncoder` runs without raising (sklearn cannot sort a column
mixing strings with `NaN` or numbers). -/
def tableHomogeneous (df : Table) : Bool :=
  df.cols.all (fun p => !isObjCol p.2 || p.2.all (fun c => isStrCell c))

/-- The cell holds the number 0 or the number 1. -/
def isBinaryCell : Cell → Bool
  | some (Val.num q) => q == 0 || q == 1
  | _ => false

/-- The table has a `hasCabin` column and all of its cells are 0 or 1. -/
def binaryHasCabin (df : Table) : Bool :=
  match df.getCol "hasCabin" with
  | none => false
  | some w => w.all isBinaryCell

/-! ### Further helper lemmas -/

theorem isStrCell_encodeCell (cls : List String) (c : Cell) :
    isStrCell (encodeCell cls c) = false := by
  cases c with
  | none => rfl
  | some x => cases x <;> rfl

theorem cellAt_lt {v : Col} {i : Nat} (h : i < v.length) :
    cellAt v i = v.get ⟨i, h⟩ := by
  unfold cellAt
  rw [List.getD_eq_get?, List.get?_eq_get h]
  rfl

theorem isBinary_hasCabinCol (v : Col) (i : Nat) (h : i < v.length) :
    isBinaryCell (cellAt (hasCabinCol v) i) = true := by
  have hlen : i < (hasCabinCol v).length := by
    unfold hasCabinCol
    rw [List.length_map]
    exact h
  rw [cellAt_lt hlen]
  unfold hasCabinCol
  rw [List.get_map]
  cases hc : (v.get ⟨i, h⟩).isNone <;> simp [isBinaryCell, hc]

theorem all_isBinary_hasCabinCol (v : Col) :
    (hasCabinCol v).all isBinaryCell = true := by
  rw [List.all_eq_true]
  intro c hc
  unfold hasCabinCol at hc
  rw [List.mem_map] at hc
  obtain ⟨x, _, rfl⟩ := hc
  cases hx : x.isNone <;> simp [isBinaryCell, hx]

deriving instance DecidableEq for Except

/-! ### Claim theorems -/

/-- C1: invoked on a path that names no existing file, the Loader raises
the file-not-found error, the orchestrator catches and reports it, and no
output file is produced (the Writer is never reached). -/
theorem c1_missing_input_aborts (lg sq : ℚ → ℚ) (fs : String → Option Table)
    (h : fs RAW_DATA_PATH = none) :
    load_data fs RAW_DATA_PATH
        = Except.error ("File tidak ditemukan di: " ++ RAW_DATA_PATH) ∧
    mainReport lg sq fs
        = some ("[ERROR] Terjadi kesalahan: "
            ++ ("File tidak ditemukan di: " ++ RAW_DATA_PATH)) ∧
    writtenOutput lg sq fs = none := by
  have hl : load_data fs RAW_DATA_PATH
      = Except.error ("File tidak ditemukan di: " ++ RAW_DATA_PATH) := by
    unfold load_data
    rw [h]
  have hr : runPipeline lg sq fs
      = Except.error ("File tidak ditemukan di: " ++ RAW_DATA_PATH) := by
    unfold runPipeline
    rw [hl]
  refine ⟨hl, ?_, ?_⟩
  · unfold mainReport
    rw [hr]
  · unfold writtenOutput
    rw [hr]
    rfl

/-- Witness for C1: the empty filesystem. -/
theorem c1_missing_input_aborts_witness :
    load_data (fun _ => none) RAW_DATA_PATH
        = Except.error ("File tidak ditemukan di: " ++ RAW_DATA_PATH) ∧
    mainReport id id (fun _ => none)
        = some ("[ERROR] Terjadi kesalahan: "
            ++ ("File tidak ditemukan di: " ++ RAW_DATA_PATH)) ∧
    writtenOutput id id (fun _ => none) = none :=
  c1_missing_input_aborts id id (fun _ => none) rfl

/-- C2: in every table the Missing-Value Handler returns, no surviving row
holds an absent value in any column. -/
theorem c2_no_residual_absences (df d : Table)
    (h : handle_missing_values df = Except.ok d) : noNulls d = true := by
  unfold handle_missing_values at h
  split at h
  · cases h
  · rename_i m hm
    injection h with h
    rw [← h]
    cases hn : hasAnyNull m with
    | true =>
      simp only [hn, if_true]
      exact noNulls_dropna m
    | false =>
      simp only [hn, Bool.false_eq_true, if_false]
      exact noNulls_of_hasAnyNull_false hn

/-- The input table of the C2 witness: absences in `Age`, `Embarked`,
`Cabin` and an untreated column `X`. -/
def dfC2 : Table :=
  ⟨2, [("Age", [some (Val.num 1), none]),
       ("Embarked", [some (Val.str "S"), none]),
       ("Cabin", [none, some (Val.str "C85")]),
       ("X", [none, some (Val.num 3)])]⟩

/-- The handler's output on `dfC2`: `Age`/`Embarked` imputed, `Cabin`
replaced by `hasCabin`, and row 0 dropped for its residual absence in `X`. -/
def resC2 : Table :=
  ⟨1, [("Age", [some (Val.num 1)]),
       ("Embarked", [some (Val.str "S")]),
       ("X", [some (Val.num 3)]),
       ("hasCabin", [some (Val.num 1)])]⟩

/-- Witness for C2. -/
theorem c2_no_residual_absences_witness :
    handle_missing_values dfC2 = Except.ok resC2 ∧ noNulls resC2 = true :=
  ⟨by decide, c2_no_residual_absences dfC2 resC2 (by decide)⟩

/-- C6 counterexample: the handler can raise beyond column absence, twice
over — on a table whose `Embarked` column exists but holds no present
value, `df['Embarked'].mode()` is the empty series and indexing it with
`[0]` raises; and on a table whose `Age` column holds a free-text value,
`df['Age'].median()` raises a TypeError on the object-dtype column.  Either
refutes "the handler returns a table without raising any error" for every
input. -/
theorem c6_counterexample :
    handle_missing_values ⟨1, [("Embarked", [none])]⟩
      = Except.error "KeyError: 0" ∧
    handle_missing_values ⟨1, [("Age", [some (Val.str "abc")])]⟩
      = Except.error "TypeError: could not convert string to float" := by
  exact ⟨by decide, by decide⟩

/-- C6 (amended): column absence is tolerated — each of the Age/Embarked/
Cabin steps is skipped when its named column is missing — and the handler
raises no error, provided the `Age` column, when present, holds no
free-text value (otherwise `median()` raises) and the `Embarked` column,
when present, holds at least one present value (otherwise `mode()[0]`
raises); see the counterexample for both failure paths. -/
theorem c6_handler_total (df : Table)
    (hA : ageNumericOK df = true) (hE : embarkedPresentOK df = true) :
    (df.getCol "Age" = none → imputeAge df = Except.ok df) ∧
    (df.getCol "Embarked" = none → imputeEmbarked df = Except.ok df) ∧
    (df.getCol "Cabin" = none → imputeCabin df = df) ∧
    isOkE (handle_missing_values df) = true := by
  refine ⟨?_, ?_, ?_, ?_⟩
  · intro hAn
    unfold imputeAge
    rw [hAn]
  · intro hEn
    unfold imputeEmbarked
    rw [hEn]
  · intro hCn
    unfold imputeCabin
    rw [hCn]
  · obtain ⟨d1, hd1, hEmb1⟩ : ∃ d1, imputeAge df = Except.ok d1 ∧
        d1.getCol "Embarked" = df.getCol "Embarked" := by
      unfold ageNumericOK at hA
      unfold imputeAge
      cases hg : df.getCol "Age" with
      | none => exact ⟨df, rfl, rfl⟩
      | some v =>
        rw [hg] at hA
        dsimp only at hA ⊢
        rw [Bool.not_eq_true'] at hA
        rw [hA, if_neg (by simp)]
        exact ⟨_, rfl, getCol_setCol_ne _ _ _ _ (by decide)⟩
    have hemb : isOkE (imputeEmbarked d1) = true := by
      unfold imputeEmbarked
      cases hEg : d1.getCol "Embarked" with
      | none => rfl
      | some v =>
        have hEdf : df.getCol "Embarked" = some v := by
          rw [← hEmb1, hEg]
        have hne : presentVals v ≠ [] := by
          unfold embarkedPresentOK at hE
          rw [hEdf] at hE
          simpa using hE
        have hsome := modeVal_isSome hne
        dsimp only
        cases hm : modeVal (presentVals v) with
        | none => rw [hm] at hsome; cases hsome
        | some m => rfl
    unfold handle_missing_values hmImpute
    rw [hd1]
    dsimp only
    cases hI : imputeEmbarked d1 with
    | error e => rw [hI] at hemb; cases hemb
    | ok d2 => rfl

/-- Witness for C6 (amended) at a table missing `Age` and `Cabin` and with
a present `Embarked` value. -/
theorem c6_handler_total_witness :
    imputeAge ⟨1, [("Embarked", [some (Val.str "S")])]⟩
      = Except.ok ⟨1, [("Embarked", [some (Val.str "S")])]⟩ ∧
    imputeCabin ⟨1, [("Embarked", [some (Val.str "S")])]⟩
      = ⟨1, [("Embarked", [some (Val.str "S")])]⟩ ∧
    isOkE (handle_missing_values ⟨1, [("Embarked", [some (Val.str "S")])]⟩) = true := by
  have h := c6_handler_total ⟨1, [("Embarked", [some (Val.str "S")])]⟩
    (by decide) (by decide)
  exact ⟨h.1 (by decide), h.2.2.1 (by decide), h.2.2.2⟩

instance decTableWF (df : Table) : Decidable df.WF := by
  unfold Table.WF
  exact List.decidableBAll _ _

theorem getColA_map_transform (l : List (String × Col)) (g : Col → Col) (n : String) :
    getColA (l.map (fun c => (c.1, g c.2))) n = (getColA l n).map g := by
  induction l with
  | nil => rfl
  | cons c t ih =>
    by_cases hc : c.1 = n
    · simp [getColA, hc]
    · simp [getColA, hc, ih]

theorem getCol_dropna (df : Table) (n : String) :
    (dropna df).getCol n
      = (df.getCol n).map
          (fun v => ((List.range df.nrows).filter
              (fun i => !rowHasNull df.cols i)).map (fun i => cellAt v i)) := by
  unfold dropna Table.getCol
  dsimp only
  exact getColA_map_transform df.cols
    (fun v => ((List.range df.nrows).filter
        (fun i => !rowHasNull df.cols i)).map (fun i => cellAt v i)) n

/-- C8: when a `Cabin` column exists, the handler adds a `hasCabin` column
that is 1 exactly where `Cabin` holds a present value and 0 where it is
absent, and the returned table no longer contains `Cabin`; across the
residual drop the column stays binary. -/
theorem c8_hasCabin (df : Table) (v : Col) (hwf : df.WF)
    (hv : df.getCol "Cabin" = some v) :
    (∀ m, hmImpute df = Except.ok m →
        m.getCol "hasCabin" = some (hasCabinCol v) ∧ m.getCol "Cabin" = none) ∧
    (∀ d, handle_missing_values df = Except.ok d →
        d.getCol "Cabin" = none ∧ binaryHasCabin d = true) := by
  have hmain : ∀ m, hmImpute df = Except.ok m →
      m.getCol "hasCabin" = some (hasCabinCol v) ∧ m.getCol "Cabin" = none := by
    intro m hm
    unfold hmImpute at hm
    split at hm
    · cases hm
    · rename_i d1 hd1
      split at hm
      · cases hm
      · rename_i d2 hd2
        injection hm with hm
        have hCd : d2.getCol "Cabin" = some v := by
          rw [getCol_imputeEmbarked_ne "Cabin" hd2 (by decide),
              getCol_imputeAge_ne "Cabin" hd1 (by decide), hv]
        rw [← hm]
        unfold imputeCabin
        rw [hCd]
        dsimp only
        constructor
        · rw [getCol_dropCol_ne _ _ _ (by decide)]
          exact getCol_setCol_self _ _ _
        · exact getCol_dropCol_self _ _
  refine ⟨hmain, ?_⟩
  intro d hd
  unfold handle_missing_values at hd
  split at hd
  · cases hd
  · rename_i m hm
    injection hd with hd
    obtain ⟨hHas, hCab⟩ := hmain m hm
    have hlenv : v.length = df.nrows := hwf _ (mem_of_getCol hv)
    have hnm : m.nrows = df.nrows := nrows_hmImpute hm
    rw [← hd]
    cases hn : hasAnyNull m with
    | false =>
      simp only [hn, Bool.false_eq_true, if_false]
      refine ⟨hCab, ?_⟩
      unfold binaryHasCabin
      rw [hHas]
      exact all_isBinary_hasCabinCol v
    | true =>
      simp only [hn, if_true]
      constructor
      · rw [getCol_dropna, hCab]
        rfl
      · unfold binaryHasCabin
        rw [getCol_dropna, hHas]
        simp only [Option.map_some']
        rw [List.all_eq_true]
        intro c hc
        rw [List.mem_map] at hc
        obtain ⟨i, hi, rfl⟩ := hc
        rw [List.mem_filter, List.mem_range] at hi
        have hilt : i < v.length := by
          rw [hlenv, ← hnm]
          exact hi.1
        exact isBinary_hasCabinCol v i hilt

/-- The input table of the C8 witness. -/
def dfC8 : Table :=
  ⟨2, [("Cabin", [none, some (Val.str "C85")]),
       ("Fare", [some (Val.num 10), some (Val.num 20)])]⟩

/-- The handler's output on `dfC8`. -/
def mC8 : Table :=
  ⟨2, [("Fare", [some (Val.num 10), some (Val.num 20)]),
       ("hasCabin", [some (Val.num 0), some (Val.num 1)])]⟩

/-- Witness for C8. -/
theorem c8_hasCabin_witness :
    hmImpute dfC8 = Except.ok mC8 ∧
    mC8.getCol "hasCabin" = some (hasCabinCol [none, some (Val.str "C85")]) ∧
    mC8.getCol "Cabin" = none ∧
    handle_missing_values dfC8 = Except.ok mC8 ∧
    binaryHasCabin mC8 = true := by
  have h := c8_hasCabin dfC8 [none, some (Val.str "C85")] (by decide) (by decide)
  have h1 := (h.1) mC8 (by decide)
  have h2 := (h.2) mC8 (by decide)
  exact ⟨by decide, h1.1, h1.2, by decide, h2.2⟩

/-- C10: when the `Age` column exists and every one of its values is
absent, its median is absent so `fillna` fills nothing, and the residual
drop then removes every row: the handler returns a table with zero rows. -/
theorem c10_all_absent_age (df : Table) (v : Col) (hwf : df.WF)
    (hv : df.getCol "Age" = some v) (hall : ∀ c ∈ v, c = none) :
    ∀ d, handle_missing_values df = Except.ok d → d.nrows = 0 := by
  intro d hd
  have hnostr : v.any isStrCell = false := by
    rw [List.any_eq_false]
    intro c hc
    rw [hall c hc]
    decide
  have hAv : imputeAge df = Except.ok (df.setCol "Age" v) := by
    unfold imputeAge
    rw [hv]
    dsimp only
    rw [hnostr, if_neg (by simp), numVals_nil_of_allNone hall]
    rfl
  obtain ⟨m, hmI, hdm⟩ : ∃ m, hmImpute df = Except.ok m ∧
      d = if hasAnyNull m then dropna m else m := by
    unfold handle_missing_values at hd
    split at hd
    · cases hd
    · rename_i m hm
      injection hd with hd
      exact ⟨m, hm, hd.symm⟩
  have hAm : m.getCol "Age" = some v := by
    unfold hmImpute at hmI
    split at hmI
    · cases hmI
    · rename_i d1 hd1
      split at hmI
      · cases hmI
      · rename_i d2 hd2
        injection hmI with hmI
        rw [hAv] at hd1
        injection hd1 with hd1
        rw [← hmI, getCol_imputeCabin_ne _ _ (by decide) (by decide),
            getCol_imputeEmbarked_ne "Age" hd2 (by decide), ← hd1]
        exact getCol_setCol_self df "Age" v
  have hnm : m.nrows = df.nrows := nrows_hmImpute hmI
  have hlenv : v.length = df.nrows := hwf _ (mem_of_getCol hv)
  have hmem : ("Age", v) ∈ m.cols := mem_of_getCol hAm
  have hkeep : (List.range m.nrows).filter (fun i => !rowHasNull m.cols i) = [] := by
    rw [List.filter_eq_nil]
    intro i hi
    rw [List.mem_range] at hi
    have hilt : i < v.length := by
      rw [hlenv, ← hnm]
      exact hi
    have hcell : cellAt v i = none := by
      rw [cellAt_lt hilt]
      exact hall _ (List.get_mem v i hilt)
    intro hcontra
    rw [Bool.not_eq_true'] at hcontra
    rw [rowHasNull, List.any_eq_false] at hcontra
    exact hcontra ("Age", v) hmem (by rw [hcell]; rfl)
  rw [hdm]
  cases hn : hasAnyNull m with
  | true =>
    rw [if_pos rfl]
    unfold dropna
    dsimp only
    rw [hkeep]
    rfl
  | false =>
    rw [if_neg (by simp)]
    have hvnil : v = [] := by
      cases v with
      | nil => rfl
      | cons c t =>
        exfalso
        unfold hasAnyNull at hn
        rw [List.any_eq_false] at hn
        apply hn _ hmem
        rw [List.any_eq_true]
        refine ⟨c, List.mem_cons_self _ _, ?_⟩
        rw [hall c (List.mem_cons_self _ _)]
        rfl
    rw [hnm, ← hlenv, hvnil]
    rfl

/-- The input table of the C10 witness: an all-absent `Age` column. -/
def dfC10 : Table :=
  ⟨2, [("Age", [none, none]), ("Fare", [some (Val.num 1), some (Val.num 2)])]⟩

/-- Witness for C10. -/
theorem c10_all_absent_age_witness :
    handle_missing_values dfC10 = Except.ok (⟨0, [("Age", []), ("Fare", [])]⟩ : Table) ∧
    (⟨0, [("Age", []), ("Fare", [])]⟩ : Table).nrows = 0 :=
  ⟨by decide,
   c10_all_absent_age dfC10 [none, none] (by decide) (by decide) (by decide)
     _ (by decide)⟩

theorem nrows_handle_le {df d : Table}
    (h : handle_missing_values df = Except.ok d) : d.nrows ≤ df.nrows := by
  unfold handle_missing_values at h
  split at h
  · cases h
  · rename_i m hm
    injection h with h
    rw [← h]
    have hnm := nrows_hmImpute hm
    by_cases hn : hasAnyNull m = true
    · rw [if_pos hn]
      calc (dropna m).nrows ≤ m.nrows := nrows_dropna_le m
        _ = df.nrows := hnm
    · rw [if_neg hn]
      exact le_of_eq hnm

/-- C7: row count is preserved by the imputation steps and by the Feature
Engineer, Encoder and Scaler; across the four transform stages it never
increases, and when no absent value remains after imputation the output row
count equals the input row count. -/
theorem c7_row_counts (lg sq : ℚ → ℚ) :
    (∀ df, (feature_engineering df).nrows = df.nrows) ∧
    (∀ df, (encoding df).nrows = df.nrows) ∧
    (∀ df, (scaling lg sq df).nrows = df.nrows) ∧
    (∀ df m, hmImpute df = Except.ok m → m.nrows = df.nrows) ∧
    (∀ df d, transformStages lg sq df = Except.ok d → d.nrows ≤ df.nrows) ∧
    (∀ df m, hmImpute df = Except.ok m → hasAnyNull m = false →
        transformStages lg sq df
          = Except.ok (scaling lg sq (encoding (feature_engineering m))) ∧
        (scaling lg sq (encoding (feature_engineering m))).nrows = df.nrows) := by
  have hhandle : ∀ df m, hmImpute df = Except.ok m → hasAnyNull m = false →
      handle_missing_values df = Except.ok m := by
    intro df m hm hn
    unfold handle_missing_values
    rw [hm]
    dsimp only
    rw [if_neg (by simp [hn])]
  refine ⟨fun df => nrows_feature_engineering df,
          fun df => nrows_encoding df,
          fun df => nrows_scaling lg sq df,
          fun df m hm => nrows_hmImpute hm, ?_, ?_⟩
  · intro df d hd
    unfold transformStages at hd
    split at hd
    · cases hd
    · rename_i d0 h0
      injection hd with hd
      rw [← hd, nrows_scaling, nrows_encoding, nrows_feature_engineering]
      exact nrows_handle_le h0
  · intro df m hm hn
    constructor
    · unfold transformStages
      rw [hhandle df m hm hn]
    · rw [nrows_scaling, nrows_encoding, nrows_feature_engineering]
      exact nrows_hmImpute hm

/-- The input table of the C7 witness: one complete row, no treated
columns, so every stage leaves the table unchanged. -/
def dfC7 : Table := ⟨1, [("A", [some (Val.num 2)])]⟩

/-- Witness for C7. -/
theorem c7_row_counts_witness :
    (feature_engineering dfC7).nrows = dfC7.nrows ∧
    (encoding dfC7).nrows = dfC7.nrows ∧
    (scaling id id dfC7).nrows = dfC7.nrows ∧
    dfC7.nrows = dfC7.nrows ∧
    transformStages id id dfC7
      = Except.ok (scaling id id (encoding (feature_engineering dfC7))) ∧
    (scaling id id (encoding (feature_engineering dfC7))).nrows ≤ dfC7.nrows := by
  have h := c7_row_counts id id
  have h6 := h.2.2.2.2.2 dfC7 dfC7 (by decide) (by decide)
  have h5 := h.2.2.2.2.1 dfC7 (scaling id id (encoding (feature_engineering dfC7))) h6.1
  exact ⟨h.1 dfC7, h.2.1 dfC7, h.2.2.1 dfC7,
         h.2.2.2.1 dfC7 dfC7 (by decide), h6.1, h5⟩

/-- C5: when a `Name` column exists, the Feature Engineer fills a `Title`
column by regex extraction (`extractTitle`) followed by the fixed lookup
table; any extracted title absent from the table, and any name where
extraction fails, yields `Rare`; in particular `Dr` maps to `Rare` and
`Mme` to `Mrs`. -/
theorem c5_title_mapping (df : Table) (v : Col) (hv : df.getCol "Name" = some v) :
    (feature_engineering df).getCol "Title" = some (v.map titleCell) ∧
    mapTitle (some "Dr") = "Rare" ∧
    mapTitle (some "Mme") = "Mrs" ∧
    (∀ s : String, title_mapping.lookup s = none → mapTitle (some s) = "Rare") ∧
    mapTitle none = "Rare" := by
  have hdrop : ∀ (d : Table) (w : Col), d.getCol "Title" = some w →
      (((d.dropCol "PassengerId").dropCol "Name").dropCol "Ticket").getCol "Title"
        = some w := by
    intro d w hw
    rw [getCol_dropCol_ne _ _ _ (by decide), getCol_dropCol_ne _ _ _ (by decide),
        getCol_dropCol_ne _ _ _ (by decide), hw]
  refine ⟨?_, by decide, by decide, ?_, by decide⟩
  · unfold feature_engineering
    rw [hv]
    dsimp only
    split
    · apply hdrop
      rw [getCol_setCol_ne _ _ _ _ (by decide)]
      exact getCol_setCol_self _ _ _
    · apply hdrop
      exact getCol_setCol_self _ _ _
  · intro s hs
    simp [mapTitle, hs]

/-- The input table of the C5 witness: a well-formed name, an absent name
(extraction fails) and a name whose title is not in the lookup table. -/
def dfC5 : Table :=
  ⟨3, [("Name", [some (Val.str "Braund, Mr. Owen Harris"), none,
                 some (Val.str "Doe, Foo. Bar")])]⟩

/-- Witness for C5. -/
theorem c5_title_mapping_witness :
    (feature_engineering dfC5).getCol "Title"
      = some [some (Val.str "Mr"), some (Val.str "Rare"), some (Val.str "Rare")] ∧
    mapTitle (some "Dr") = "Rare" ∧
    mapTitle (some "Mme") = "Mrs" ∧
    mapTitle (some "Foo") = "Rare" ∧
    mapTitle none = "Rare" := by
  have h := c5_title_mapping dfC5
      [some (Val.str "Braund, Mr. Owen Harris"), none, some (Val.str "Doe, Foo. Bar")]
      (by decide)
  refine ⟨?_, h.2.1, h.2.2.1, h.2.2.2.1 "Foo" (by decide), h.2.2.2.2⟩
  rw [h.1]
  decide

/-- C3: the Encoder replaces every free-text column (and only those) by
integer codes — the position of each value in the ascending sorted list of
the column's distinct values, independently per column — and the returned
table holds no free-text value.  The homogeneity hypothesis restricts to
the domain on which sklearn's `LabelEncoder` runs without raising (it
cannot sort a column mixing strings with `NaN` or numbers), which is where
the model is faithful. -/
theorem c3_encoding (df : Table) (_h : tableHomogeneous df = true) :
    noStrCells (encoding df) = true ∧
    (∀ p ∈ df.cols, isObjCol p.2 = true →
        (p.1, (p.2).map (encodeCell (classesOf p.2))) ∈ (encoding df).cols) ∧
    (∀ p ∈ df.cols, isObjCol p.2 = true →
        (classesOf p.2).Sorted (· ≤ ·) ∧ (classesOf p.2).Nodup ∧
        (∀ s : String, s ∈ strVals p.2 ↔ s ∈ classesOf p.2)) := by
  refine ⟨?_, ?_, ?_⟩
  · unfold noStrCells encoding
    dsimp only
    rw [List.all_eq_true]
    intro p hp
    rw [List.mem_map] at hp
    obtain ⟨q, hq, rfl⟩ := hp
    by_cases ho : isObjCol q.2 = true
    · rw [if_pos ho]
      dsimp only
      rw [List.all_eq_true]
      intro c hc
      unfold labelEncode at hc
      rw [List.mem_map] at hc
      obtain ⟨x, _, rfl⟩ := hc
      rw [isStrCell_encodeCell]
      rfl
    · rw [if_neg ho]
      rw [Bool.not_eq_true] at ho
      unfold isObjCol at ho
      rw [List.any_eq_false] at ho
      rw [List.all_eq_true]
      intro c hc
      have hcf := ho c hc
      cases hIs : isStrCell c
      · rfl
      · exact absurd hIs hcf
  · intro p hp hobj
    unfold encoding
    dsimp only
    have himg : (fun c => if isObjCol c.2 then (c.1, labelEncode c.2) else c) p
        = (p.1, (p.2).map (encodeCell (classesOf p.2))) := by
      dsimp only
      rw [if_pos hobj]
      try rfl
    rw [← himg]
    exact List.mem_map_of_mem _ hp
  · intro p hp hobj
    unfold classesOf
    refine ⟨?_, List.nodup_dedup _, ?_⟩
    · exact List.Pairwise.sublist (List.dedup_sublist _)
        (List.sorted_insertionSort _ _)
    · intro s
      rw [List.mem_dedup, List.mem_insertionSort]

/-- The input table of the C3 witness: one free-text column, one numeric
column. -/
def dfC3 : Table :=
  ⟨3, [("Sex", [some (Val.str "male"), some (Val.str "female"), some (Val.str "male")]),
       ("Pclass", [some (Val.num 3), some (Val.num 1), some (Val.num 3)])]⟩

/-- The `Sex` column of `dfC3`. -/
def sexCol : Col :=
  [some (Val.str "male"), some (Val.str "female"), some (Val.str "male")]

/-- Witness for C3. -/
theorem c3_encoding_witness :
    noStrCells (encoding dfC3) = true ∧
    ("Sex", sexCol.map (encodeCell (classesOf sexCol))) ∈ (encoding dfC3).cols ∧
    (classesOf sexCol).Sorted (· ≤ ·) ∧
    (classesOf sexCol).Nodup ∧
    ("female" ∈ strVals sexCol ↔ "female" ∈ classesOf sexCol) := by
  have h := c3_encoding dfC3 (by decide)
  have hB := h.2.1 ("Sex", sexCol) (by decide) (by decide)
  have hC := h.2.2 ("Sex", sexCol) (by decide) (by decide)
  exact ⟨h.1, hB, hC.1, hC.2.1, hC.2.2 "female"⟩

theorem sum_map_sub_div (xs : List ℚ) (c d : ℚ) :
    (xs.map (fun x => (x - c) / d)).sum = (xs.sum - xs.length * c) / d := by
  induction xs with
  | nil => simp
  | cons a t ih =>
    rw [List.map_cons, List.sum_cons, ih, List.sum_cons, List.length_cons]
    push_cast
    ring

theorem sum_map_sub_div_sq (xs : List ℚ) (c d : ℚ) :
    (xs.map (fun x => ((x - c) / d) ^ 2)).sum
      = (xs.map (fun x => (x - c) ^ 2)).sum / d ^ 2 := by
  induction xs with
  | nil => simp
  | cons a t ih =>
    rw [List.map_cons, List.sum_cons, ih, List.map_cons, List.sum_cons]
    ring

theorem mean_standardized (xs : List ℚ) (hn : (xs.length : ℚ) ≠ 0) (d : ℚ) :
    meanQ (xs.map (fun x => (x - meanQ xs) / d)) = 0 := by
  unfold meanQ
  rw [sum_map_sub_div, List.length_map]
  have hz : xs.sum - (xs.length : ℚ) * (xs.sum / xs.length) = 0 := by
    field_simp
  rw [hz, zero_div, zero_div]

theorem popVar_standardized (xs : List ℚ) (hn : (xs.length : ℚ) ≠ 0) (d : ℚ)
    (hd : d * d = popVarQ xs) (hv : popVarQ xs ≠ 0) :
    popVarQ (xs.map (fun x => (x - meanQ xs) / d)) = 1 := by
  have hmean0 := mean_standardized xs hn d
  have hS : (xs.map (fun x => (x - meanQ xs) ^ 2)).sum ≠ 0 := by
    unfold popVarQ at hv
    intro h0
    apply hv
    rw [h0, zero_div]
  unfold popVarQ at hd
  unfold popVarQ
  rw [hmean0]
  simp only [sub_zero]
  rw [List.map_map]
  simp only [Function.comp_def]
  rw [sum_map_sub_div_sq, List.length_map, pow_two, hd]
  field_simp

theorem standardize_stats (sq : ℚ → ℚ) (v : Col)
    (h1 : sq (popVarQ (numVals v)) * sq (popVarQ (numVals v)) = popVarQ (numVals v))
    (h2 : popVarQ (numVals v) ≠ 0) :
    meanQ (numVals (standardizeQ sq v)) = 0 ∧
    popVarQ (numVals (standardizeQ sq v)) = 1 := by
  have hmap : numVals (standardizeQ sq v)
      = (numVals v).map
          (fun x => (x - meanQ (numVals v)) / sq (popVarQ (numVals v))) :=
    numVals_mapNumCol _ v
  have hne : numVals v ≠ [] := by
    intro hnil
    apply h2
    rw [hnil]
    unfold popVarQ
    simp
  have hn : (((numVals v).length : ℚ)) ≠ 0 :=
    Nat.cast_ne_zero.2 (List.length_pos.2 hne).ne'
  rw [hmap]
  exact ⟨mean_standardized _ hn _, popVar_standardized _ hn _ h1 h2⟩

theorem getCol_standardizeCol_self (sq : ℚ → ℚ) {df : Table} {n : String}
    {v : Col} (h : df.getCol n = some v) :
    (standardizeCol sq n df).getCol n = some (standardizeQ sq v) := by
  unfold standardizeCol
  rw [h]
  exact getCol_setCol_self _ _ _

theorem getCol_standardizeCol_ne (sq : ℚ → ℚ) (n n' : String) (df : Table)
    (h : n' ≠ n) :
    (standardizeCol sq n df).getCol n' = df.getCol n' := by
  unfold standardizeCol
  split
  · rfl
  · exact getCol_setCol_ne _ _ _ _ h

/-- The C4 counterexample input: a constant `Age` column. -/
def dfC4 : Table := ⟨2, [("Age", [some (Val.num 5), some (Val.num 5)])]⟩

/-- C4 counterexample: on a constant column the claim's "population
standard deviation ≈ 1" fails.  sklearn guards zero variance by setting the
scale to 1, so the output column is identically 0 with standard deviation
0; the rational model computes the same all-zero column here (its `sq`
kernel is evaluated only at variance 0, where `id 0 = 0 = √0` is exact, and
`0/0 = 0` in `ℚ` matches sklearn's guarded `0/1 = 0`). -/
theorem c4_counterexample :
    (scaling id id dfC4).getCol "Age"
      = some [some (Val.num 0), some (Val.num 0)] ∧
    popVarQ (numVals [some (Val.num 0), some (Val.num 0)]) = 0 ∧
    (0 : ℚ) ≠ 1 := by
  refine ⟨?_, ?_, by norm_num⟩
  · have h1 : dfC4.getCol "Fare" = none := by decide
    have h2 : dfC4.getCol "Age" = some [some (Val.num 5), some (Val.num 5)] := by
      decide
    have h3 : standardizeQ id [some (Val.num 5), some (Val.num 5)]
        = [some (Val.num 0), some (Val.num 0)] := by
      norm_num [standardizeQ, mapNumCol, popVarQ, meanQ, numVals, cellNum,
        List.filterMap_cons]
    unfold scaling
    rw [h1]
    dsimp only
    rw [getCol_standardizeCol_ne id "Fare" "Age" _ (by decide),
        getCol_standardizeCol_self id h2, h3]
  · norm_num [popVarQ, meanQ, numVals, cellNum, List.filterMap_cons]

/-- C4 (amended): the Scaler replaces `Fare` by its log transform BEFORE
standardizing (the returned `Fare` column is the standardization of the
log-transformed one), the returned `Age` column is the standardization of
the input one, and standardization produces mean exactly 0 and population
variance exactly 1 for every column of nonzero population variance,
provided the square-root kernel is exact at that variance.  Constant
columns (zero variance) come out identically 0 — std 0, not 1 — which is
what the counterexample exhibits. -/
theorem c4_scaling (lg sq : ℚ → ℚ) (df : Table) :
    (∀ f, df.getCol "Fare" = some f →
        (scaling lg sq df).getCol "Fare"
          = some (standardizeQ sq (mapNumCol lg f))) ∧
    (∀ a, df.getCol "Age" = some a →
        (scaling lg sq df).getCol "Age" = some (standardizeQ sq a)) ∧
    (∀ v : Col,
        sq (popVarQ (numVals v)) * sq (popVarQ (numVals v)) = popVarQ (numVals v) →
        popVarQ (numVals v) ≠ 0 →
        meanQ (numVals (standardizeQ sq v)) = 0 ∧
        popVarQ (numVals (standardizeQ sq v)) = 1) := by
  refine ⟨?_, ?_, fun v h1 h2 => standardize_stats sq v h1 h2⟩
  · intro f hf
    unfold scaling
    rw [hf]
    dsimp only
    have h2 : (standardizeCol sq "Age" (df.setCol "Fare" (mapNumCol lg f))).getCol "Fare"
        = some (mapNumCol lg f) := by
      rw [getCol_standardizeCol_ne sq "Age" "Fare" _ (by decide)]
      exact getCol_setCol_self _ _ _
    exact getCol_standardizeCol_self sq h2
  · intro a ha
    unfold scaling
    dsimp only
    cases hF : df.getCol "Fare" with
    | none =>
      dsimp only
      rw [getCol_standardizeCol_ne sq "Fare" "Age" _ (by decide)]
      exact getCol_standardizeCol_self sq ha
    | some fv =>
      dsimp only
      rw [getCol_standardizeCol_ne sq "Fare" "Age" _ (by decide)]
      apply getCol_standardizeCol_self sq
      rw [getCol_setCol_ne _ _ _ _ (by decide), ha]

/-- The C4 witness input: a non-constant `Age` column with variance 1. -/
def dfC4w : Table := ⟨2, [("Age", [some (Val.num 0), some (Val.num 2)])]⟩

/-- Witness for C4 (amended): on `[0, 2]` the variance is 1, `id` is an
exact square root there, and the standardized column has mean 0 and
population variance 1. -/
theorem c4_scaling_witness :
    (scaling id id dfC4w).getCol "Age"
      = some (standardizeQ id [some (Val.num 0), some (Val.num 2)]) ∧
    meanQ (numVals (standardizeQ id [some (Val.num 0), some (Val.num 2)])) = 0 ∧
    popVarQ (numVals (standardizeQ id [some (Val.num 0), some (Val.num 2)])) = 1 := by
  have h := c4_scaling id id dfC4w
  have h3 := h.2.2 [some (Val.num 0), some (Val.num 2)]
    (by norm_num [popVarQ, meanQ, numVals, cellNum, List.filterMap_cons])
    (by norm_num [popVarQ, meanQ, numVals, cellNum, List.filterMap_cons])
  exact ⟨h.2.1 [some (Val.num 0), some (Val.num 2)] (by decide), h3.1, h3.2⟩
